import Mathlib

/-!
Shallow embedding of the debt ledger and date-bucketing engine of the
personal budgeting dashboard (src/App.tsx, src/unnamed/part_000).

Currency amounts are JS numbers used with +, -, max and division; they are
modelled as rationals (ℚ).  Instants (JS `Date.getTime()`) are modelled as
integer milliseconds since the epoch.  Calendar dates handled by JS `Date`
component arithmetic (getMonth/setMonth/setDate) are modelled by a civil
(year, month, day) record together with the standard Gregorian
days-since-epoch conversion that underlies `Date`.
-/

/-- Milliseconds since the Unix epoch, as returned by JS `Date.getTime()`. -/
abbrev Timestamp := Int

/-- Milliseconds in one day (the constant `oneDay` of utils/date.ts). -/
def msPerDay : Int := 86400000

/-- utils/date.ts `daysBetween`: `Math.round(Math.abs(t1 - t2) / oneDay)`.
The absolute value makes the result non-negative, so it is a `Nat`;
`Math.round` on a non-negative argument is floor of (x + 1/2), i.e.
`(2*diff + oneDay) / (2*oneDay)` in integer division. -/
def daysBetween (t1 t2 : Timestamp) : Nat :=
  (2 * (t1 - t2).natAbs + 86400000) / 172800000

/-- The `type` field of a `DebtTransaction` ('payment' | 'withdrawal'). -/
inductive TxType where
  | payment
  | withdrawal
deriving DecidableEq, Repr

/-- types.ts `DebtTransaction`: one append-only ledger entry of a debt. -/
structure DebtTransaction where
  id : String
  date : Timestamp
  amount : ℚ
  type : TxType
  reason : Option String
deriving DecidableEq, Repr

/-- types.ts `Debt`: the debt entity of App.tsx. -/
structure Debt where
  id : String
  name : String
  source : String
  totalAmount : ℚ
  amountPaid : ℚ
  dueDate : Timestamp
  createdAt : Timestamp
  targetMonth : Option Int
  targetYear : Option Int
  transactions : List DebtTransaction
deriving DecidableEq, Repr

/-- App.tsx `handleAddPayment`, body of the map for the debt with the matching
id: append a payment transaction and add the amount to `amountPaid`. -/
def applyPayment (d : Debt) (txId : String) (now : Timestamp) (amount : ℚ) : Debt :=
  { d with
    amountPaid := d.amountPaid + amount
    transactions := d.transactions ++ [⟨txId, now, amount, TxType.payment, none⟩] }

/-- App.tsx `handleAddPayment` (lines 774-791): map over the debt collection,
updating only the debt whose id matches. -/
def handleAddPayment (debts : List Debt) (id txId : String) (now : Timestamp)
    (amount : ℚ) : List Debt :=
  debts.map fun d => if d.id = id then applyPayment d txId now amount else d

/-- App.tsx `handleWithdrawPayment`, body of the map for the debt with the
matching id: append a withdrawal transaction (amount stored positive, with a
reason) and subtract the amount from `amountPaid`, clamped at 0 by
`Math.max(0, ...)`. -/
def applyWithdrawal (d : Debt) (txId : String) (now : Timestamp) (amount : ℚ)
    (reason : String) : Debt :=
  { d with
    amountPaid := max 0 (d.amountPaid - amount)
    transactions := d.transactions ++ [⟨txId, now, amount, TxType.withdrawal, some reason⟩] }

/-- App.tsx `handleWithdrawPayment` (lines 793-811): map over the debt
collection, updating only the debt whose id matches. -/
def handleWithdrawPayment (debts : List Debt) (id txId : String) (now : Timestamp)
    (amount : ℚ) (reason : String) : List Debt :=
  debts.map fun d => if d.id = id then applyWithdrawal d txId now amount reason else d

/-- App.tsx `DebtItem.initiateWithdraw` followed by `confirmWithdraw`
(lines 100-118): the withdrawal flow for the rendered debt.  A non-positive
input is ignored; an input exceeding `debt.amountPaid` is rejected with an
alert; an empty (all-whitespace) reason is rejected; otherwise
`handleWithdrawPayment` runs on the collection. -/
def withdrawFlow (debts : List Debt) (debt : Debt) (txId : String) (now : Timestamp)
    (amount : ℚ) (reason : String) : List Debt :=
  if amount ≤ 0 then debts
  else if debt.amountPaid < amount then debts
  else if reason.trim = "" then debts
  else handleWithdrawPayment debts debt.id txId now amount reason

/-- App.tsx `activeDebts`/`completedDebts` (lines 463-472): a single reduce
that pushes each debt with `amountPaid ≥ totalAmount` onto the completed list
and every other debt onto the active list.  First component: activeDebts;
second: completedDebts. -/
def partitionDebts (debts : List Debt) : List Debt × List Debt :=
  debts.foldl
    (fun acc d =>
      if d.amountPaid ≥ d.totalAmount then (acc.1, acc.2 ++ [d]) else (acc.1 ++ [d], acc.2))
    ([], [])

/-- App.tsx `weeklyDebtContribution` (lines 485-496): reduce over the active
debts; a debt with non-positive remaining balance contributes nothing, an
overdue-or-due-now debt (`weeksLeft ≤ 0`) contributes its whole remaining
balance, and otherwise the remaining balance is divided by
`weeksLeft = Math.ceil(daysBetween(now, dueDate) / 7)`. -/
def weeklyDebtContribution (now : Timestamp) (activeDebts : List Debt) : ℚ :=
  activeDebts.foldl
    (fun total d =>
      let remainingAmount := d.totalAmount - d.amountPaid
      if remainingAmount ≤ 0 then total
      else
        let weeksLeft := (daysBetween now d.dueDate + 6) / 7
        if weeksLeft ≤ 0 then total + remainingAmount
        else total + remainingAmount / (weeksLeft : ℚ))
    0

/-- Per-debt contribution as the specification words it: nothing when the
remaining balance is non-positive; the full remaining balance when
`weeksLeft ≤ 0`; otherwise `remaining / weeksLeft`. -/
def debtContribution (now : Timestamp) (d : Debt) : ℚ :=
  let remaining := d.totalAmount - d.amountPaid
  if remaining ≤ 0 then 0
  else
    let weeksLeft := (daysBetween now d.dueDate + 6) / 7
    if weeksLeft ≤ 0 then remaining
    else remaining / (weeksLeft : ℚ)

/-- Gregorian leap-year rule, as implemented by JS `Date`. -/
def isLeap (y : Int) : Bool :=
  (y % 4 == 0 && y % 100 != 0) || y % 400 == 0

/-- Length of month `m` (0-based, JS `getMonth` numbering) of year `y`. -/
def daysInMonth (y m : Int) : Int :=
  if m = 1 then (if isLeap y then 29 else 28)
  else if m = 3 ∨ m = 5 ∨ m = 8 ∨ m = 10 then 30
  else 31

/-- A civil calendar date as JS `Date` components: `month` is 0-based
(`getMonth`), `day` is 1-based (`getDate`). -/
structure CivilDate where
  year : Int
  month : Int
  day : Int
deriving DecidableEq, Repr

/-- A civil date whose components denote an actual calendar day. -/
def CivilDate.valid (c : CivilDate) : Prop :=
  0 ≤ c.month ∧ c.month ≤ 11 ∧ 1 ≤ c.day ∧ c.day ≤ daysInMonth c.year c.month

instance (c : CivilDate) : Decidable c.valid := by
  unfold CivilDate.valid; infer_instance

/-- Days since 1970-01-01 of a civil date (the day-number part of JS
`Date.getTime()`).  Standard Gregorian conversion; `day` may lie outside the
month (the function is linear in `day`), matching `Date` day-overflow
normalization. -/
def daysFromCivil (c : CivilDate) : Int :=
  let y := if c.month ≤ 1 then c.year - 1 else c.year
  let era := y / 400
  let yoe := y - era * 400
  let mp := if c.month ≤ 1 then c.month + 10 else c.month - 2
  let doy := (153 * mp + 2) / 5 + c.day - 1
  let doe := yoe * 365 + yoe / 4 - yoe / 100 + doy
  era * 146097 + doe - 719468

/-- Civil date of a day number (inverse Gregorian conversion, the
`getFullYear`/`getMonth`/`getDate` components of JS `Date`). -/
def civilFromDays (z : Int) : CivilDate :=
  let z2 := z + 719468
  let era := z2 / 146097
  let doe := z2 - era * 146097
  let yoe := (doe - doe / 1460 + doe / 36524 - doe / 146096) / 365
  let y := yoe + era * 400
  let doy := doe - (365 * yoe + yoe / 4 - yoe / 100)
  let mp := (5 * doy + 2) / 153
  let d := doy - (153 * mp + 2) / 5 + 1
  let m := if mp < 10 then mp + 2 else mp - 10
  ⟨if m ≤ 1 then y + 1 else y, m, d⟩

/-- Midnight timestamp of a civil date. -/
def msOfCivil (c : CivilDate) : Timestamp :=
  msPerDay * daysFromCivil c

/-- JS `Date.setDate(getDate() + 7)` on a valid calendar date: add 7 days,
rolling into the next month (and possibly the next year) on overflow. -/
def addSevenDays (c : CivilDate) : CivilDate :=
  if c.day + 7 ≤ daysInMonth c.year c.month then ⟨c.year, c.month, c.day + 7⟩
  else if c.month = 11 then ⟨c.year + 1, 0, c.day + 7 - daysInMonth c.year c.month⟩
  else ⟨c.year, c.month + 1, c.day + 7 - daysInMonth c.year c.month⟩

/-- JS `Date.setMonth(getMonth() + 1)` on a valid calendar date: step to the
next calendar month keeping the day-of-month, rolling any day overflow
forward into the following month (e.g. Jan 31 becomes Mar 2/3), exactly the
`Date` month-rollover arithmetic. -/
def addOneMonth (c : CivilDate) : CivilDate :=
  if c.month = 11 then
    (if c.day ≤ daysInMonth (c.year + 1) 0 then ⟨c.year + 1, 0, c.day⟩
     else ⟨c.year + 1, 1, c.day - daysInMonth (c.year + 1) 0⟩)
  else
    (if c.day ≤ daysInMonth c.year (c.month + 1) then ⟨c.year, c.month + 1, c.day⟩
     else if c.month + 1 = 11 then ⟨c.year + 1, 0, c.day - daysInMonth c.year (c.month + 1)⟩
     else ⟨c.year, c.month + 2, c.day - daysInMonth c.year (c.month + 1)⟩)

/-- Chronological order of civil dates: for valid dates this is exactly the
timestamp comparison `currentDate <= endDate` used by the recurring loop. -/
def dateLE (a b : CivilDate) : Prop :=
  a.year < b.year ∨
    (a.year = b.year ∧ (a.month < b.month ∨ (a.month = b.month ∧ a.day ≤ b.day)))

instance (a b : CivilDate) : Decidable (dateLE a b) := by
  unfold dateLE; infer_instance

/-- Strictly monotone linearization of the lexicographic date order on valid
dates (months span 31 slots, years 372); used as a loop variant. -/
def toOrdinal (c : CivilDate) : Int :=
  372 * c.year + 31 * c.month + c.day

/-- types.ts `FilterState.type`: 'all' | 'year' | 'month' | 'week'. -/
inductive FilterType where
  | all
  | year
  | month
  | week
deriving DecidableEq, Repr

/-- types.ts `FilterState`: `month` (0-11) and `week` (1-based) are optional. -/
structure FilterState where
  type : FilterType
  year : Int
  month : Option Int
  week : Option Int
deriving DecidableEq, Repr

/-- utils/date.ts `getWeekRange` (lines 33-41), expressed on day numbers:
anchor on `Jan 1 + (week-1)*7` days of `year`, roll back to that week's
Monday (`getDay()` is 0 for Sunday), and span 6 further days.  Returns the
day numbers of the start (Monday) and end (Sunday) days. -/
def getWeekRange (year week : Int) : Int × Int :=
  let anchor := daysFromCivil ⟨year, 0, 1 + (week - 1) * 7⟩
  let day := (anchor + 4) % 7
  let start := anchor - day + (if day = 0 then -6 else 1)
  (start, start + 6)

/-- utils/date.ts `isDateInFilter` (lines 48-68).  `Date` getters are read
off the civil date of the timestamp's day.  In the 'week' branch the source
tests JS truthiness of `week` (so a missing week, and the number 0, never
match), sets the range end to 23:59:59.999 of its day, and compares
timestamps inclusively. -/
def isDateInFilter (t : Timestamp) (filter : FilterState) : Bool :=
  match filter.type with
  | FilterType.all => true
  | FilterType.year => (civilFromDays (t / msPerDay)).year == filter.year
  | FilterType.month =>
      match filter.month with
      | some m =>
          (civilFromDays (t / msPerDay)).year == filter.year &&
            (civilFromDays (t / msPerDay)).month == m
      | none => false
  | FilterType.week =>
      match filter.week with
      | some w =>
          if w ≠ 0 then
            let r := getWeekRange filter.year w
            decide (msPerDay * r.1 ≤ t ∧ t ≤ msPerDay * r.2 + 86399999)
          else false
      | none => false

/-- App.tsx `handleSaveDebt`, 'shopee' branch (lines 640-668): one debt due
on the 10th of the month after the bill month, rolling December into January
of the next year; the due month/year also become the target budget bucket. -/
def shopeeDebt (billMonth billYear : Int) (totalAmount : ℚ) (id : String)
    (createdAt : Timestamp) : Debt :=
  let dueMonth := billMonth + 1
  let dueYear := billYear
  let dueMonth2 := if dueMonth > 11 then 0 else dueMonth
  let dueYear2 := if dueMonth > 11 then dueYear + 1 else dueYear
  { id := id
    name := "SPayLater - Hóa đơn T" ++ toString (billMonth + 1)
    source := "Shopee SPayLater"
    totalAmount := totalAmount
    amountPaid := 0
    dueDate := msOfCivil ⟨dueYear2, dueMonth2, 10⟩
    createdAt := createdAt
    targetMonth := some dueMonth2
    targetYear := some dueYear2
    transactions := [] }

/-- The recurring frequency selector of App.tsx ('weekly' | 'monthly'). -/
inductive Frequency where
  | weekly
  | monthly
deriving DecidableEq, Repr

/-- The fields of the new-debt form consumed by the recurring branch. -/
structure DebtTemplate where
  name : String
  source : String
  totalAmount : ℚ
deriving DecidableEq, Repr

/-- One step of the recurring loop's date advance: `setDate(getDate() + 7)`
under weekly cadence, `setMonth(getMonth() + 1)` under monthly cadence. -/
def advanceDate : Frequency → CivilDate → CivilDate
  | Frequency.weekly, c => addSevenDays c
  | Frequency.monthly, c => addOneMonth c

/-- `advanceDate` iterated from a start date (the date of installment `i`,
0-based, of the recurring loop). -/
def iterAdvance (freq : Frequency) : Nat → CivilDate → CivilDate
  | 0, c => c
  | n + 1, c => iterAdvance freq n (advanceDate freq c)

/-- Name of one recurring installment: the template name plus the suffix
`(Tháng {month}/{year})` under monthly cadence, `(Kỳ {count})` (1-based
installment index) under weekly cadence. -/
def instName (baseName : String) (freq : Frequency) (c : CivilDate) (count : Nat) : String :=
  match freq with
  | Frequency.monthly =>
      baseName ++ " (Tháng " ++ toString (c.month + 1) ++ "/" ++ toString c.year ++ ")"
  | Frequency.weekly => baseName ++ " (Kỳ " ++ toString count ++ ")"

/-- The debt object pushed by one iteration of the recurring loop
(App.tsx lines 693-704): due on the current date, targeting that date's
month/year, with `amountPaid` 0 and an empty ledger. -/
def mkInstallment (tmpl : DebtTemplate) (freq : Frequency) (idBase : String)
    (createdAt : Timestamp) (c : CivilDate) (count : Nat) : Debt :=
  { id := idBase ++ "-" ++ toString count
    name := instName tmpl.name freq c count
    source := tmpl.source
    totalAmount := tmpl.totalAmount
    amountPaid := 0
    dueDate := msOfCivil c
    createdAt := createdAt
    targetMonth := some c.month
    targetYear := some c.year
    transactions := [] }

/-- The recurring `while (currentDate <= endDate)` loop of App.tsx
(lines 681-713), with an explicit iteration budget: `none` means the budget
ran out before the loop condition failed (never happens — see the
termination theorem), `some` carries the emitted installments in order. -/
def expandFrom (tmpl : DebtTemplate) (freq : Frequency) (idBase : String)
    (createdAt : Timestamp) (endD : CivilDate) :
    Nat → CivilDate → Nat → Option (List Debt)
  | 0, current, _ => if dateLE current endD then none else some []
  | fuel + 1, current, count =>
      if dateLE current endD then
        match expandFrom tmpl freq idBase createdAt endD fuel
            (advanceDate freq current) (count + 1) with
        | some rest => some (mkInstallment tmpl freq idBase createdAt current count :: rest)
        | none => none
      else some []

/-- An iteration budget sufficient for the recurring loop (one per ordinal
between start and end, plus one final test). -/
def expandFuel (startD endD : CivilDate) : Nat :=
  (toOrdinal endD + 1 - toOrdinal startD).toNat

/-- App.tsx recurring expansion (lines 670-713): run the loop from the start
date with `count` starting at 1. -/
def expandRecurring (tmpl : DebtTemplate) (freq : Frequency) (idBase : String)
    (createdAt : Timestamp) (startD endD : CivilDate) : Option (List Debt) :=
  expandFrom tmpl freq idBase createdAt endD (expandFuel startD endD) startD 1

/-- All `Debt` fields other than `amountPaid` and `transactions` agree: the
frame that payment/withdrawal operations must leave untouched. -/
def sameFrame (a b : Debt) : Prop :=
  a.id = b.id ∧ a.name = b.name ∧ a.source = b.source ∧ a.totalAmount = b.totalAmount ∧
  a.dueDate = b.dueDate ∧ a.createdAt = b.createdAt ∧ a.targetMonth = b.targetMonth ∧
  a.targetYear = b.targetYear

/-! ## Helper lemmas -/

theorem daysInMonth_bounds (y m : Int) : 28 ≤ daysInMonth y m ∧ daysInMonth y m ≤ 31 := by
  unfold daysInMonth
  split_ifs <;> omega

theorem daysInMonth_eleven (y : Int) : daysInMonth y 11 = 31 := by
  simp [daysInMonth]

theorem daysInMonth_zero (y : Int) : daysInMonth y 0 = 31 := by
  simp [daysInMonth]

theorem addSevenDays_valid (c : CivilDate) (h : c.valid) : (addSevenDays c).valid := by
  obtain ⟨h1, h2, h3, h4⟩ := h
  have hb := daysInMonth_bounds c.year c.month
  have hz := daysInMonth_zero (c.year + 1)
  have hb2 := daysInMonth_bounds c.year (c.month + 1)
  unfold addSevenDays
  split_ifs <;> unfold CivilDate.valid <;> dsimp only <;> omega

theorem addSevenDays_ord (c : CivilDate) (h : c.valid) :
    toOrdinal c + 7 ≤ toOrdinal (addSevenDays c) := by
  obtain ⟨h1, h2, h3, h4⟩ := h
  have hb := daysInMonth_bounds c.year c.month
  unfold addSevenDays toOrdinal
  split_ifs with e1 e2 <;> dsimp only <;> omega

theorem addOneMonth_valid (c : CivilDate) (h : c.valid) : (addOneMonth c).valid := by
  obtain ⟨h1, h2, h3, h4⟩ := h
  have hb := daysInMonth_bounds c.year c.month
  have hz := daysInMonth_zero (c.year + 1)
  have hone : daysInMonth (c.year + 1) 1 ≥ 28 := (daysInMonth_bounds (c.year + 1) 1).1
  have hb2 := daysInMonth_bounds c.year (c.month + 1)
  have hb3 := daysInMonth_bounds c.year (c.month + 2)
  unfold addOneMonth
  split_ifs <;> unfold CivilDate.valid <;> dsimp only <;> omega

theorem addOneMonth_ord (c : CivilDate) (h : c.valid) :
    toOrdinal c < toOrdinal (addOneMonth c) := by
  obtain ⟨h1, h2, h3, h4⟩ := h
  have hb := daysInMonth_bounds c.year c.month
  have hz := daysInMonth_zero (c.year + 1)
  have hb2 := daysInMonth_bounds c.year (c.month + 1)
  unfold addOneMonth toOrdinal
  split_ifs <;> dsimp only <;> omega

theorem dateLE_iff_ord (a b : CivilDate) (ha : a.valid) (hb : b.valid) :
    dateLE a b ↔ toOrdinal a ≤ toOrdinal b := by
  obtain ⟨ha1, ha2, ha3, ha4⟩ := ha
  obtain ⟨hb1, hb2, hb3, hb4⟩ := hb
  have hda := daysInMonth_bounds a.year a.month
  have hdb := daysInMonth_bounds b.year b.month
  unfold dateLE toOrdinal
  omega

theorem advanceDate_valid (freq : Frequency) (c : CivilDate) (h : c.valid) :
    (advanceDate freq c).valid := by
  cases freq
  · exact addSevenDays_valid c h
  · exact addOneMonth_valid c h

theorem advanceDate_ord (freq : Frequency) (c : CivilDate) (h : c.valid) :
    toOrdinal c < toOrdinal (advanceDate freq c) := by
  cases freq
  · exact lt_of_lt_of_le (by omega) (addSevenDays_ord c h)
  · exact addOneMonth_ord c h

theorem iterAdvance_valid (freq : Frequency) (n : Nat) (c : CivilDate) (h : c.valid) :
    (iterAdvance freq n c).valid := by
  induction n generalizing c with
  | zero => exact h
  | succ n ih => exact ih (advanceDate freq c) (advanceDate_valid freq c h)

theorem iterAdvance_ord_le (freq : Frequency) (n : Nat) (c : CivilDate) (h : c.valid) :
    toOrdinal c ≤ toOrdinal (iterAdvance freq n c) := by
  induction n generalizing c with
  | zero => exact le_refl _
  | succ n ih =>
      have h1 := advanceDate_ord freq c h
      have h2 := ih (advanceDate freq c) (advanceDate_valid freq c h)
      unfold iterAdvance
      omega

theorem expandFrom_isSome (tmpl : DebtTemplate) (freq : Frequency) (idBase : String)
    (createdAt : Timestamp) (endD : CivilDate) (he : endD.valid) :
    ∀ (fuel : Nat) (current : CivilDate) (count : Nat), current.valid →
      (toOrdinal endD + 1 - toOrdinal current).toNat ≤ fuel →
      (expandFrom tmpl freq idBase createdAt endD fuel current count).isSome := by
  intro fuel
  induction fuel with
  | zero =>
      intro current count hc hf
      have hno : ¬ dateLE current endD := by
        rw [dateLE_iff_ord current endD hc he]
        omega
      simp [expandFrom, hno]
  | succ fuel ih =>
      intro current count hc hf
      by_cases hle : dateLE current endD
      · have hv := advanceDate_valid freq current hc
        have ho := advanceDate_ord freq current hc
        have hre : toOrdinal current ≤ toOrdinal endD :=
          (dateLE_iff_ord current endD hc he).mp hle
        have hf2 : (toOrdinal endD + 1 - toOrdinal (advanceDate freq current)).toNat ≤ fuel := by
          omega
        have hsome := ih (advanceDate freq current) (count + 1) hv hf2
        obtain ⟨rest, hrest⟩ := Option.isSome_iff_exists.mp hsome
        simp [expandFrom, hle, hrest]
      · simp [expandFrom, hle]

theorem iterAdvance_not_le (freq : Frequency) (endD : CivilDate) (he : endD.valid)
    (current : CivilDate) (hc : current.valid) (hle : ¬ dateLE current endD) (i : Nat) :
    ¬ dateLE (iterAdvance freq i current) endD := by
  have hvi := iterAdvance_valid freq i current hc
  have hoi := iterAdvance_ord_le freq i current hc
  rw [dateLE_iff_ord _ _ hvi he]
  rw [dateLE_iff_ord _ _ hc he] at hle
  omega

theorem expandFrom_sound (tmpl : DebtTemplate) (freq : Frequency) (idBase : String)
    (createdAt : Timestamp) (endD : CivilDate) (he : endD.valid) :
    ∀ (fuel : Nat) (current : CivilDate) (count : Nat) (L : List Debt), current.valid →
      expandFrom tmpl freq idBase createdAt endD fuel current count = some L →
      (∀ i : Nat, i < L.length ↔ dateLE (iterAdvance freq i current) endD) ∧
      (∀ (i : Nat) (h : i < L.length),
        L.get ⟨i, h⟩
          = mkInstallment tmpl freq idBase createdAt (iterAdvance freq i current) (count + i)) := by
  intro fuel
  induction fuel with
  | zero =>
      intro current count L hc hL
      by_cases hle : dateLE current endD
      · simp [expandFrom, hle] at hL
      · simp [expandFrom, hle] at hL
        subst hL
        refine ⟨fun i => ?_, fun i h => absurd h (by simp)⟩
        simp only [List.length_nil]
        exact ⟨fun hi => absurd hi (by omega),
          fun hd => absurd hd (iterAdvance_not_le freq endD he current hc hle i)⟩
  | succ fuel ih =>
      intro current count L hc hL
      by_cases hle : dateLE current endD
      · rcases hrec : expandFrom tmpl freq idBase createdAt endD fuel
            (advanceDate freq current) (count + 1) with _ | rest
        · simp [expandFrom, hle, hrec] at hL
        · have hL2 : L = mkInstallment tmpl freq idBase createdAt current count :: rest := by
            simp [expandFrom, hle, hrec] at hL
            exact hL.symm
          subst hL2
          obtain ⟨ihlen, ihget⟩ := ih (advanceDate freq current) (count + 1) rest
            (advanceDate_valid freq current hc) hrec
          constructor
          · intro i
            cases i with
            | zero =>
                simp only [List.length_cons]
                exact ⟨fun _ => hle, fun _ => by omega⟩
            | succ i =>
                simp only [List.length_cons, Nat.succ_lt_succ_iff]
                exact ihlen i
          · intro i h
            cases i with
            | zero =>
                show mkInstallment tmpl freq idBase createdAt current count
                  = mkInstallment tmpl freq idBase createdAt current (count + 0)
                rfl
            | succ i =>
                have h2 : i < rest.length := by
                  simpa [Nat.succ_lt_succ_iff] using h
                have hg := ihget i h2
                have harith : count + 1 + i = count + (i + 1) := by omega
                rw [harith] at hg
                exact hg
      · simp [expandFrom, hle] at hL
        subst hL
        refine ⟨fun i => ?_, fun i h => absurd h (by simp)⟩
        simp only [List.length_nil]
        exact ⟨fun hi => absurd hi (by omega),
          fun hd => absurd hd (iterAdvance_not_le freq endD he current hc hle i)⟩

/-! ## Claim theorems -/

/-- C1: a withdrawal whose amount strictly exceeds the debt's current
`amountPaid` is rejected by `initiateWithdraw` and leaves the collection —
in particular the debt, its `amountPaid` and its transaction list —
completely unchanged. -/
theorem withdraw_over_balance_rejected (debts : List Debt) (debt : Debt)
    (txId : String) (now : Timestamp) (amount : ℚ) (reason : String)
    (h : debt.amountPaid < amount) :
    withdrawFlow debts debt txId now amount reason = debts := by
  unfold withdrawFlow
  split_ifs <;> rfl

/-- Witness for C1 at a concrete debt with `amountPaid = 50` and a withdrawal
of 60. -/
theorem withdraw_over_balance_rejected_witness :
    (50 : ℚ) < 60 ∧
      withdrawFlow [] ⟨"a", "n", "s", 100, 50, 0, 0, none, none, []⟩ "t" 0 60 "r" = [] :=
  ⟨by norm_num,
    withdraw_over_balance_rejected [] ⟨"a", "n", "s", 100, 50, 0, 0, none, none, []⟩
      "t" 0 60 "r" (by norm_num)⟩

/-- C3: on a debt with non-negative `amountPaid`, a payment of a positive
amount followed by a withdrawal of the same amount restores `amountPaid`
exactly and extends the transaction list by exactly the payment record
followed by the withdrawal record (two entries). -/
theorem pay_then_withdraw_roundtrip (d : Debt) (a : ℚ) (txId1 txId2 : String)
    (t1 t2 : Timestamp) (reason : String) (hp : 0 ≤ d.amountPaid) (ha : 0 < a) :
    (applyWithdrawal (applyPayment d txId1 t1 a) txId2 t2 a reason).amountPaid
        = d.amountPaid ∧
    (applyWithdrawal (applyPayment d txId1 t1 a) txId2 t2 a reason).transactions
        = d.transactions
            ++ [⟨txId1, t1, a, TxType.payment, none⟩,
                ⟨txId2, t2, a, TxType.withdrawal, some reason⟩] ∧
    (applyWithdrawal (applyPayment d txId1 t1 a) txId2 t2 a reason).transactions.length
        = d.transactions.length + 2 := by
  refine ⟨?_, ?_, ?_⟩
  · show max 0 (d.amountPaid + a - a) = d.amountPaid
    rw [add_sub_cancel_right]
    exact max_eq_right hp
  · show (d.transactions ++ [⟨txId1, t1, a, TxType.payment, none⟩])
        ++ [⟨txId2, t2, a, TxType.withdrawal, some reason⟩] = _
    rw [List.append_assoc]
    rfl
  · simp [applyPayment, applyWithdrawal]

/-- Witness for C3 at a concrete debt with `amountPaid = 40` and amount 15. -/
theorem pay_then_withdraw_roundtrip_witness :
    (0 : ℚ) ≤ 40 ∧ (0 : ℚ) < 15 ∧
      (applyWithdrawal (applyPayment (⟨"a", "n", "s", 100, 40, 0, 0, none, none, []⟩ : Debt)
          "t1" 1 15) "t2" 2 15 "why").amountPaid = 40 :=
  ⟨by norm_num, by norm_num,
    (pay_then_withdraw_roundtrip (⟨"a", "n", "s", 100, 40, 0, 0, none, none, []⟩ : Debt)
      15 "t1" "t2" 1 2 "why" (by norm_num) (by norm_num)).1⟩

/-- C9: starting from debts with non-negative `amountPaid`, both a payment of
a positive amount and a withdrawal of a positive amount leave every debt in
the collection with non-negative `amountPaid` (withdrawals clamp at 0). -/
theorem amountPaid_nonneg_preserved (debts : List Debt) (id txId : String)
    (now : Timestamp) (amount : ℚ) (reason : String)
    (h0 : ∀ d ∈ debts, 0 ≤ d.amountPaid) (ha : 0 < amount) :
    (∀ d ∈ handleAddPayment debts id txId now amount, 0 ≤ d.amountPaid) ∧
    (∀ d ∈ handleWithdrawPayment debts id txId now amount reason, 0 ≤ d.amountPaid) := by
  constructor
  · intro d hd
    rcases List.mem_map.mp hd with ⟨d0, hd0, rfl⟩
    by_cases hid : d0.id = id
    · simp only [hid, if_pos rfl]
      show (0 : ℚ) ≤ d0.amountPaid + amount
      exact add_nonneg (h0 d0 hd0) (le_of_lt ha)
    · simp only [if_neg hid]
      exact h0 d0 hd0
  · intro d hd
    rcases List.mem_map.mp hd with ⟨d0, hd0, rfl⟩
    by_cases hid : d0.id = id
    · simp only [hid, if_pos rfl]
      exact le_max_left 0 _
    · simp only [if_neg hid]
      exact h0 d0 hd0

/-- Witness for C9 on a concrete one-debt collection. -/
theorem amountPaid_nonneg_preserved_witness :
    (∀ d ∈ [(⟨"a", "n", "s", 100, 40, 0, 0, none, none, []⟩ : Debt)], 0 ≤ d.amountPaid) ∧
    (0 : ℚ) < 15 ∧
    (∀ d ∈ handleAddPayment [⟨"a", "n", "s", 100, 40, 0, 0, none, none, []⟩] "a" "t" 1 15,
      0 ≤ d.amountPaid) :=
  ⟨by intro d hd; rw [List.mem_singleton] at hd; subst hd; norm_num,
   by norm_num,
   (amountPaid_nonneg_preserved [⟨"a", "n", "s", 100, 40, 0, 0, none, none, []⟩]
      "a" "t" 1 15 "r"
      (by intro d hd; rw [List.mem_singleton] at hd; subst hd; norm_num)
      (by norm_num)).1⟩

/-- C10: payments and withdrawals are frame-preserving: lengths are kept,
only the debt whose id matches the target is changed, on that debt only
`amountPaid` and `transactions` may change (all other fields are kept), and
when no debt carries the target id the whole collection is unchanged. -/
theorem ledger_frame (debts : List Debt) (id txId : String) (now : Timestamp)
    (amount : ℚ) (reason : String) :
    (handleAddPayment debts id txId now amount).length = debts.length ∧
    (handleWithdrawPayment debts id txId now amount reason).length = debts.length ∧
    (∀ (i : Nat) (h : i < debts.length)
        (hp : i < (handleAddPayment debts id txId now amount).length)
        (hw : i < (handleWithdrawPayment debts id txId now amount reason).length),
      ((debts.get ⟨i, h⟩).id ≠ id →
        (handleAddPayment debts id txId now amount).get ⟨i, hp⟩ = debts.get ⟨i, h⟩ ∧
        (handleWithdrawPayment debts id txId now amount reason).get ⟨i, hw⟩
          = debts.get ⟨i, h⟩) ∧
      sameFrame ((handleAddPayment debts id txId now amount).get ⟨i, hp⟩)
        (debts.get ⟨i, h⟩) ∧
      sameFrame ((handleWithdrawPayment debts id txId now amount reason).get ⟨i, hw⟩)
        (debts.get ⟨i, h⟩)) ∧
    ((∀ d ∈ debts, d.id ≠ id) →
      handleAddPayment debts id txId now amount = debts ∧
      handleWithdrawPayment debts id txId now amount reason = debts) := by
  refine ⟨by simp [handleAddPayment], by simp [handleWithdrawPayment], ?_, ?_⟩
  · intro i h hp hw
    have e1 : (handleAddPayment debts id txId now amount).get ⟨i, hp⟩
        = (fun d => if d.id = id then applyPayment d txId now amount else d)
            (debts.get ⟨i, h⟩) := by
      simp [handleAddPayment]
    have e2 : (handleWithdrawPayment debts id txId now amount reason).get ⟨i, hw⟩
        = (fun d => if d.id = id then applyWithdrawal d txId now amount reason else d)
            (debts.get ⟨i, h⟩) := by
      simp [handleWithdrawPayment]
    rw [e1, e2]
    dsimp only
    by_cases hid : (debts.get ⟨i, h⟩).id = id
    · rw [if_pos hid, if_pos hid]
      exact ⟨fun hne => absurd hid hne,
        ⟨rfl, rfl, rfl, rfl, rfl, rfl, rfl, rfl⟩,
        ⟨rfl, rfl, rfl, rfl, rfl, rfl, rfl, rfl⟩⟩
    · rw [if_neg hid, if_neg hid]
      exact ⟨fun _ => ⟨rfl, rfl⟩,
        ⟨rfl, rfl, rfl, rfl, rfl, rfl, rfl, rfl⟩,
        ⟨rfl, rfl, rfl, rfl, rfl, rfl, rfl, rfl⟩⟩
  · intro hno
    constructor
    · unfold handleAddPayment
      rw [List.map_congr_left (fun d hd => if_neg (hno d hd))]
      exact List.map_id' debts
    · unfold handleWithdrawPayment
      rw [List.map_congr_left (fun d hd => if_neg (hno d hd))]
      exact List.map_id' debts

/-- Witness for C10 on a concrete two-debt collection. -/
theorem ledger_frame_witness :
    (handleAddPayment
        [⟨"a", "n", "s", 100, 40, 0, 0, none, none, []⟩,
         ⟨"b", "m", "s", 200, 10, 0, 0, none, none, []⟩] "a" "t" 1 15).length
      = ([⟨"a", "n", "s", 100, 40, 0, 0, none, none, []⟩,
          ⟨"b", "m", "s", 200, 10, 0, 0, none, none, []⟩] : List Debt).length :=
  (ledger_frame
    [⟨"a", "n", "s", 100, 40, 0, 0, none, none, []⟩,
     ⟨"b", "m", "s", 200, 10, 0, 0, none, none, []⟩] "a" "t" 1 15 "r").1

theorem partitionDebts_foldl (l : List Debt) :
    ∀ a c : List Debt,
      l.foldl
        (fun acc d =>
          if d.amountPaid ≥ d.totalAmount then (acc.1, acc.2 ++ [d])
          else (acc.1 ++ [d], acc.2)) (a, c)
      = (a ++ l.filter (fun d => !decide (d.amountPaid ≥ d.totalAmount)),
         c ++ l.filter (fun d => decide (d.amountPaid ≥ d.totalAmount))) := by
  induction l with
  | nil => intro a c; simp
  | cons d l ih =>
      intro a c
      rw [List.foldl_cons]
      by_cases hd : d.amountPaid ≥ d.totalAmount
      · rw [if_pos hd, ih]
        simp [List.filter_cons, hd]
      · rw [if_neg hd, ih]
        simp [List.filter_cons, hd]

/-- C4: the active/completed partition is exhaustive, disjoint, decided
solely by `amountPaid ≥ totalAmount`, and order-preserving: it equals the
pair of stable filters of the input, membership in each side is
characterized by the completion test, each side is a sublist of the input
(relative order kept), and occurrence counts add up to the input's. -/
theorem partition_active_completed (debts : List Debt) :
    partitionDebts debts
      = (debts.filter (fun d => !decide (d.amountPaid ≥ d.totalAmount)),
         debts.filter (fun d => decide (d.amountPaid ≥ d.totalAmount))) ∧
    (∀ d : Debt, d ∈ (partitionDebts debts).1 ↔ d ∈ debts ∧ d.amountPaid < d.totalAmount) ∧
    (∀ d : Debt, d ∈ (partitionDebts debts).2 ↔ d ∈ debts ∧ d.amountPaid ≥ d.totalAmount) ∧
    (partitionDebts debts).1.Sublist debts ∧
    (partitionDebts debts).2.Sublist debts ∧
    (∀ d : Debt,
      (partitionDebts debts).1.count d + (partitionDebts debts).2.count d
        = debts.count d) := by
  have hmain : partitionDebts debts
      = (debts.filter (fun d => !decide (d.amountPaid ≥ d.totalAmount)),
         debts.filter (fun d => decide (d.amountPaid ≥ d.totalAmount))) := by
    unfold partitionDebts
    rw [partitionDebts_foldl]
    simp
  refine ⟨hmain, ?_, ?_, ?_, ?_, ?_⟩
  · intro d
    rw [hmain]
    simp [List.mem_filter, not_le]
  · intro d
    rw [hmain]
    simp [List.mem_filter]
  · rw [hmain]
    exact List.filter_sublist debts
  · rw [hmain]
    exact List.filter_sublist debts
  · intro d
    rw [hmain]
    dsimp only
    by_cases hd : d.amountPaid ≥ d.totalAmount
    · have h1 : (debts.filter (fun d => !decide (d.amountPaid ≥ d.totalAmount))).count d = 0 := by
        rw [List.count_eq_zero]
        intro hmem
        rw [List.mem_filter] at hmem
        simp only [Bool.not_eq_true', decide_eq_false_iff_not] at hmem
        exact hmem.2 hd
      have h2 : (debts.filter (fun d => decide (d.amountPaid ≥ d.totalAmount))).count d
          = debts.count d := List.count_filter (by simpa using hd)
      omega
    · have h1 : (debts.filter (fun d => !decide (d.amountPaid ≥ d.totalAmount))).count d
          = debts.count d := List.count_filter (by simpa using hd)
      have h2 : (debts.filter (fun d => decide (d.amountPaid ≥ d.totalAmount))).count d = 0 := by
        rw [List.count_eq_zero]
        intro hmem
        rw [List.mem_filter] at hmem
        simp only [decide_eq_true_eq] at hmem
        exact hd hmem.2
      omega

theorem weeklyDebtContribution_fold (now : Timestamp) (l : List Debt) :
    ∀ t : ℚ,
      List.foldl
        (fun total d =>
          let remainingAmount := d.totalAmount - d.amountPaid
          if remainingAmount ≤ 0 then total
          else
            let weeksLeft := (daysBetween now d.dueDate + 6) / 7
            if weeksLeft ≤ 0 then total + remainingAmount
            else total + remainingAmount / (weeksLeft : ℚ)) t l
      = t + (l.map (debtContribution now)).sum := by
  induction l with
  | nil => intro t; simp
  | cons d l ih =>
      intro t
      rw [List.foldl_cons, ih]
      have hb : (let remainingAmount := d.totalAmount - d.amountPaid
          if remainingAmount ≤ 0 then t
          else
            let weeksLeft := (daysBetween now d.dueDate + 6) / 7
            if weeksLeft ≤ 0 then t + remainingAmount
            else t + remainingAmount / (weeksLeft : ℚ))
          = t + debtContribution now d := by
        simp only [debtContribution]
        split_ifs <;> ring
      rw [hb]
      simp only [List.map_cons, List.sum_cons]
      ring

/-- C2: the weekly debt contribution is the sum over the given active debts
of the per-debt contribution (0 when the remaining balance is non-positive,
the full remaining balance when `weeksLeft ≤ 0`, `remaining / weeksLeft`
otherwise, with `weeksLeft = ceil(daysBetween(now, dueDate) / 7)`); a single
active debt with remaining 700 and `weeksLeft` 7 contributes 100, and with
`weeksLeft` 0 contributes the full 700. -/
theorem weeklyDebtContribution_spec (now : Timestamp) (debts : List Debt) :
    weeklyDebtContribution now debts = (debts.map (debtContribution now)).sum ∧
    weeklyDebtContribution 0 [⟨"d1", "n", "s", 700, 0, 49 * 86400000, 0, none, none, []⟩]
      = 100 ∧
    (daysBetween 0 (49 * 86400000) + 6) / 7 = 7 ∧
    weeklyDebtContribution 0 [⟨"d1", "n", "s", 700, 0, 0, 0, none, none, []⟩] = 700 ∧
    (daysBetween 0 0 + 6) / 7 = 0 := by
  refine ⟨?_, ?_, by norm_num [daysBetween], ?_, by norm_num [daysBetween]⟩
  · unfold weeklyDebtContribution
    rw [weeklyDebtContribution_fold]
    rw [zero_add]
  · norm_num [weeklyDebtContribution, daysBetween]
  · norm_num [weeklyDebtContribution, daysBetween]

/-- C7: for any bill month 0-11 and year, the Shopee SPayLater generator due
date is the 10th of the following calendar month — January of the next year
when the bill month is December (11) — and that same following month/year is
assigned as the debt's target budget bucket. -/
theorem shopee_due_next_month (m y : Int) (amt : ℚ) (id : String) (t : Timestamp)
    (h0 : 0 ≤ m) (h1 : m ≤ 11) :
    (shopeeDebt m y amt id t).dueDate
        = msOfCivil ⟨if m = 11 then y + 1 else y, if m = 11 then 0 else m + 1, 10⟩ ∧
    (shopeeDebt m y amt id t).targetMonth = some (if m = 11 then 0 else m + 1) ∧
    (shopeeDebt m y amt id t).targetYear = some (if m = 11 then y + 1 else y) := by
  by_cases hc : m = 11
  · subst hc
    refine ⟨?_, ?_, ?_⟩ <;> simp [shopeeDebt]
  · have hno : ¬ (m + 1 > 11) := by omega
    refine ⟨?_, ?_, ?_⟩ <;> simp [shopeeDebt, hno, hc]

/-- Witness for C7 at the December rollover (bill month 11 of 2024). -/
theorem shopee_due_next_month_witness :
    (0 : Int) ≤ 11 ∧
      (shopeeDebt 11 2024 150000 "i" 0).targetMonth = some 0 ∧
      (shopeeDebt 11 2024 150000 "i" 0).targetYear = some 2025 :=
  ⟨by norm_num,
    (shopee_due_next_month 11 2024 150000 "i" 0 (by norm_num) (by norm_num)).2.1,
    (shopee_due_next_month 11 2024 150000 "i" 0 (by norm_num) (by norm_num)).2.2⟩

/-- C8: a week-type filter with a (1-based) week number matches a timestamp
exactly when it lies between the Monday midnight start of `getWeekRange` and
the last millisecond (23:59:59.999) of its Sunday end day; a week-type
filter with a missing week number matches nothing. -/
theorem week_filter_range (t : Timestamp) (y w : Int) (mo : Option Int) (hw : 1 ≤ w) :
    (isDateInFilter t ⟨FilterType.week, y, mo, some w⟩ = true ↔
      msPerDay * (getWeekRange y w).1 ≤ t ∧
        t ≤ msPerDay * (getWeekRange y w).2 + 86399999) ∧
    (∀ s : Timestamp, isDateInFilter s ⟨FilterType.week, y, mo, none⟩ = false) := by
  constructor
  · have hw0 : w ≠ 0 := by omega
    simp [isDateInFilter, hw0]
  · intro s
    rfl

/-- Witness for C8: week 1 of 2024 (Mon 2024-01-01 .. Sun 2024-01-07)
matches a timestamp inside the week. -/
theorem week_filter_range_witness :
    (1 : Int) ≤ 1 ∧
      (isDateInFilter (19724 * 86400000 + 123) ⟨FilterType.week, 2024, none, some 1⟩ = true ↔
        msPerDay * (getWeekRange 2024 1).1 ≤ 19724 * 86400000 + 123 ∧
          19724 * 86400000 + 123 ≤ msPerDay * (getWeekRange 2024 1).2 + 86399999) :=
  ⟨by norm_num,
    (week_filter_range (19724 * 86400000 + 123) 2024 1 none (by norm_num)).1⟩

/-- C6: the recurring expansion loop always terminates: every advance step
strictly increases the current date (its ordinal), and the loop run with the
finite budget derived from the fixed end date finishes (returns `some`)
for every valid start/end date and cadence. -/
theorem recurring_loop_terminates (tmpl : DebtTemplate) (freq : Frequency)
    (idBase : String) (createdAt : Timestamp) (startD endD : CivilDate)
    (hs : startD.valid) (he : endD.valid) :
    (∀ c : CivilDate, c.valid → toOrdinal c < toOrdinal (advanceDate freq c)) ∧
    (expandRecurring tmpl freq idBase createdAt startD endD).isSome = true := by
  refine ⟨fun c hc => advanceDate_ord freq c hc, ?_⟩
  have h := expandFrom_isSome tmpl freq idBase createdAt endD he
    (expandFuel startD endD) startD 1 hs (le_refl _)
  simpa using h

/-- Witness for C6: monthly expansion from 2024-01-15 to 2024-04-15
terminates. -/
theorem recurring_loop_terminates_witness :
    CivilDate.valid ⟨2024, 0, 15⟩ ∧ CivilDate.valid ⟨2024, 3, 15⟩ ∧
      (expandRecurring ⟨"Trả góp", "bank", 500⟩ Frequency.monthly "X" 0
        ⟨2024, 0, 15⟩ ⟨2024, 3, 15⟩).isSome = true :=
  ⟨by decide, by decide,
    (recurring_loop_terminates ⟨"Trả góp", "bank", 500⟩ Frequency.monthly "X" 0
      ⟨2024, 0, 15⟩ ⟨2024, 3, 15⟩ (by decide) (by decide)).2⟩

/-- C5: the recurring expansion emits, per loop step `i` (0-based), one
installment due on the `i`-times-advanced start date (7 days per step when
weekly, one calendar month per step when monthly), carrying that date's
month/year as target bucket, `amountPaid` 0, an empty transaction list and
the `(Tháng m/y)` / `(Kỳ n)` name suffix with `n = i + 1`; it emits exactly
the steps whose date is still ≤ the end date, and in particular produces
zero installments when start > end. -/
theorem recurring_expansion_spec (tmpl : DebtTemplate) (freq : Frequency)
    (idBase : String) (createdAt : Timestamp) (startD endD : CivilDate)
    (hs : startD.valid) (he : endD.valid) :
    ∃ L : List Debt,
      expandRecurring tmpl freq idBase createdAt startD endD = some L ∧
      (¬ dateLE startD endD → L = []) ∧
      (∀ i : Nat, i < L.length ↔ dateLE (iterAdvance freq i startD) endD) ∧
      (∀ (i : Nat) (h : i < L.length),
        L.get ⟨i, h⟩
          = mkInstallment tmpl freq idBase createdAt (iterAdvance freq i startD) (i + 1)) ∧
      (∀ (i : Nat) (h : i < L.length),
        (L.get ⟨i, h⟩).dueDate = msOfCivil (iterAdvance freq i startD) ∧
        (L.get ⟨i, h⟩).targetMonth = some (iterAdvance freq i startD).month ∧
        (L.get ⟨i, h⟩).targetYear = some (iterAdvance freq i startD).year ∧
        (L.get ⟨i, h⟩).amountPaid = 0 ∧
        (L.get ⟨i, h⟩).transactions = [] ∧
        (L.get ⟨i, h⟩).name = instName tmpl.name freq (iterAdvance freq i startD) (i + 1)) := by
  have hsome := expandFrom_isSome tmpl freq idBase createdAt endD he
    (expandFuel startD endD) startD 1 hs (le_refl _)
  obtain ⟨L, hL⟩ := Option.isSome_iff_exists.mp hsome
  obtain ⟨hlen, hget⟩ := expandFrom_sound tmpl freq idBase createdAt endD he
    (expandFuel startD endD) startD 1 L hs hL
  refine ⟨L, hL, ?_, hlen, ?_, ?_⟩
  · intro hnle
    have hz : L.length = 0 := by
      by_contra hne
      exact hnle ((hlen 0).mp (Nat.pos_of_ne_zero hne))
    exact List.length_eq_zero.mp hz
  · intro i h
    have hg := hget i h
    rw [Nat.add_comm 1 i] at hg
    exact hg
  · intro i h
    have hg := hget i h
    rw [Nat.add_comm 1 i] at hg
    rw [hg]
    exact ⟨rfl, rfl, rfl, rfl, rfl, rfl⟩

/-- Witness for C5: weekly expansion from 2024-01-01 to 2024-01-22. -/
theorem recurring_expansion_spec_witness :
    CivilDate.valid ⟨2024, 0, 1⟩ ∧ CivilDate.valid ⟨2024, 0, 22⟩ ∧
      (∃ L : List Debt,
        expandRecurring ⟨"Trả góp", "bank", 500⟩ Frequency.weekly "X" 0
            ⟨2024, 0, 1⟩ ⟨2024, 0, 22⟩ = some L ∧
        (¬ dateLE ⟨2024, 0, 1⟩ ⟨2024, 0, 22⟩ → L = []) ∧
        (∀ i : Nat, i < L.length ↔
          dateLE (iterAdvance Frequency.weekly i ⟨2024, 0, 1⟩) ⟨2024, 0, 22⟩) ∧
        (∀ (i : Nat) (h : i < L.length),
          L.get ⟨i, h⟩ = mkInstallment ⟨"Trả góp", "bank", 500⟩ Frequency.weekly "X" 0
            (iterAdvance Frequency.weekly i ⟨2024, 0, 1⟩) (i + 1)) ∧
        (∀ (i : Nat) (h : i < L.length),
          (L.get ⟨i, h⟩).dueDate
              = msOfCivil (iterAdvance Frequency.weekly i ⟨2024, 0, 1⟩) ∧
          (L.get ⟨i, h⟩).targetMonth
              = some (iterAdvance Frequency.weekly i ⟨2024, 0, 1⟩).month ∧
          (L.get ⟨i, h⟩).targetYear
              = some (iterAdvance Frequency.weekly i ⟨2024, 0, 1⟩).year ∧
          (L.get ⟨i, h⟩).amountPaid = 0 ∧
          (L.get ⟨i, h⟩).transactions = [] ∧
          (L.get ⟨i, h⟩).name = instName "Trả góp" Frequency.weekly
            (iterAdvance Frequency.weekly i ⟨2024, 0, 1⟩) (i + 1))) :=
  ⟨by decide, by decide,
    recurring_expansion_spec ⟨"Trả góp", "bank", 500⟩ Frequency.weekly "X" 0
      ⟨2024, 0, 1⟩ ⟨2024, 0, 22⟩ (by decide) (by decide)⟩
